import Mathlib

/- Verification of the data-acquisition and caching layer of the nba-terminal
dashboard.  The Python sources embedded here are src/api.py and the cache,
retry and rate-limit constants of src/constants.py.  Machine integers do not
occur; wall-clock times and TTLs are modelled as rationals, Python exceptions
as an explicit error type threaded through Except, and in-place mutation of
the ApiClient object as explicit state passing.  The in-memory TTLCache tiers
are modelled as association maps in which an expired entry is identified with
an absent one (expiry is the only observable of cachetools lookups that the
claims mention).  Remote endpoints (nba_api) are modelled as an environment
of Except-valued adapter results, one per endpoint, evaluated at the adapter
boundary of each retried thunk. -/

namespace NbaTerminal

/-- A Python exception value crossing the modelled layers.  `exc msg ty`
carries the result of str(e) and the exception type name, which is all that
api.py ever inspects (in _user_facing_error).  `attributeError` is the
AttributeError raised by evaluating the module attribute
constants.CACHE_TTL_OFFLINE: src/constants.py never defines that name, while
api.py reads it on every offline-fallback path. -/
inductive PyErr where
  | attributeError : PyErr
  | exc (msg : String) (ty : String) : PyErr
deriving DecidableEq, Repr

/-- str(e) for the modelled exceptions. -/
def PyErr.str : PyErr → String
  | .attributeError => "module constants has no attribute CACHE_TTL_OFFLINE"
  | .exc msg _ => msg

/-- type(e).__name__ for the modelled exceptions. -/
def PyErr.ty : PyErr → String
  | .attributeError => "AttributeError"
  | .exc _ ty => ty

/-- One on-disk cache file for a key, as json.load reads it back.  `corrupt`
is the json.JSONDecodeError / OSError branch of the readers; `record ts data`
is a file of the documented shape, a JSON object with keys ts and data as
written by _disk_cache_set (src/api.py lines 58-64).  The type parameter is
the per-key shape of the stored data value. -/
inductive DiskFile (α : Type) where
  | corrupt : DiskFile α
  | record (ts : ℚ) (data : α) : DiskFile α
deriving DecidableEq, Repr

/-- src/api.py _disk_cache_get (lines 43-55): None when the file is missing,
unreadable, or now - ts >= ttl; otherwise the stored data. -/
def disk_cache_get {α : Type} (file : Option (DiskFile α)) (now ttl : ℚ) : Option α :=
  match file with
  | none => none
  | some .corrupt => none
  | some (.record ts data) => if now - ts ≥ ttl then none else some data

/-- src/api.py _disk_cache_get_offline (lines 67-80): None when the file is
missing, unreadable, or now - ts > max_age_seconds; otherwise the data. -/
def disk_cache_get_offline {α : Type} (file : Option (DiskFile α)) (now maxAge : ℚ) :
    Option α :=
  match file with
  | none => none
  | some .corrupt => none
  | some (.record ts data) => if now - ts > maxAge then none else some data

/-- src/constants.py line 114. -/
def CACHE_TTL_GAMES : ℚ := 90

/-- src/constants.py line 113. -/
def CACHE_TTL_STANDINGS : ℚ := 3600

/-- src/constants.py line 115. -/
def CACHE_TTL_LEAGUE_LEADERS : ℚ := 3600

/-- src/constants.py line 120, the Python float 0.6 as an exact rational. -/
def RATE_LIMIT_MIN_INTERVAL : ℚ := 3 / 5

/-- constants.CACHE_TTL_OFFLINE.  src/constants.py defines no such name, so
in Python every read of this module attribute (api.py lines 205, 210, 223,
272, 319, 402) raises AttributeError.  The attribute read is therefore
embedded as a failing Except value. -/
def CACHE_TTL_OFFLINE : Except PyErr ℚ := .error .attributeError

/-- constants.REQUEST_TIMEOUT.  Also never defined in src/constants.py,
while api.py passes it as the timeout argument of every nba_api endpoint
constructor (lines 250, 254, 296, 339, 388, 419, 430, 447, 462, 468, 478,
490, 511, 533, 553): in the source every such argument evaluation raises
AttributeError before the endpoint can run. -/
def REQUEST_TIMEOUT : Except PyErr ℚ := .error .attributeError

/-- Python `t in s` on strings, for a non-empty search string t. -/
def strIn (t s : String) : Bool := (s.splitOn t).length > 1

/-- src/api.py _user_facing_error (lines 83-97): classify an exception into a
short user-facing message. -/
def user_facing_error (e : PyErr) (default_pfx : String) : String :=
  let raw := e.str.trim
  let msg := if raw = "" then e.ty else raw
  let errLower := msg.toLower
  if strIn "timeout" errLower || strIn "timed out" errLower then
    "Connection timeout. Try again later."
  else if strIn "connection" errLower || strIn "network" errLower ||
      strIn "unreachable" errLower then
    "No connection. Check your network."
  else if strIn "rate" errLower || strIn "429" msg || strIn "too many" errLower then
    "Too many requests. Wait a moment and retry."
  else if strIn "404" msg || strIn "not found" errLower then
    "Data not found."
  else if msg.length > 60 then default_pfx ++ ": " ++ msg.take 57 ++ "..."
  else default_pfx ++ ": " ++ msg

/-- tenacity wait_exponential(multiplier, max, exp_base 2, min) evaluated
after attempt `attemptNumber`: max(max(0, min), min(multiplier *
2 ^ (attemptNumber - 1), max)). -/
def wait_exponential (multiplier mn mx : ℚ) (attemptNumber : ℕ) : ℚ :=
  max (max 0 mn) (min (multiplier * 2 ^ (attemptNumber - 1)) mx)

/-- The tenacity retry loop of _with_retry (src/api.py lines 154-161).
`op n` is the outcome of the n-th execution of the thunk, `n` the current
attempt number and `remaining` how many further attempts stop_after_attempt
still allows.  The second component collects the backoff waits (in seconds)
slept between consecutive attempts. -/
def retryFrom {α : Type} (op : ℕ → Except PyErr α) : ℕ → ℕ → Except PyErr α × List ℚ
  | n, 0 => (op n, [])
  | n, remaining + 1 =>
    match op n with
    | .ok v => (.ok v, [])
    | .error _ =>
      let rest := retryFrom op (n + 1) remaining
      (rest.1, wait_exponential 1 1 10 n :: rest.2)

/-- src/api.py _with_retry: stop_after_attempt(3), wait_exponential with
multiplier 1, min 1, max 10, reraise True.  Attempt numbering starts at 1 and
two further attempts may follow the first. -/
def with_retry {α : Type} (op : ℕ → Except PyErr α) : Except PyErr α × List ℚ :=
  retryFrom op 1 2

/-- One element of a team periods list in build_quarter_scores: a JSON object
whose period and score entries may be missing or null (dict.get).  Python
`p.get("period") or 0` maps both an absent/None field and an explicit 0 to 0,
which Option.getD 0 reproduces exactly; likewise for the score. -/
structure PeriodEntry where
  period : Option Int
  score : Option Int
deriving DecidableEq, Repr

/-- One team argument of build_quarter_scores: the periods list (Python
`team.get("periods") or []` collapses a missing/None/empty list to []) and the
optional provided total score. -/
structure TeamSide where
  periods : List PeriodEntry
  score : Option Int
deriving DecidableEq, Repr

/-- The effective period number of an entry, Python `p.get("period") or 0`. -/
def effNum (p : PeriodEntry) : Int := p.period.getD 0

/-- The effective score of an entry, Python `p.get("score") or 0`. -/
def effScore (p : PeriodEntry) : Int := p.score.getD 0

/-- The by_period dict of build_quarter_scores as an association list in
insertion order: entries (period number, away score, home score).  One Python
loop iteration: create [0, 0] for a new key, then assign one side. -/
def bpSet (isAway : Bool) (bp : List (Int × Int × Int)) (num s : Int) :
    List (Int × Int × Int) :=
  if bp.any fun e => e.1 = num then
    bp.map fun e =>
      if e.1 = num then (if isAway then (e.1, s, e.2.2) else (e.1, e.2.1, s)) else e
  else
    bp ++ [if isAway then (num, s, 0) else (num, 0, s)]

/-- by_period.get(num, [0, 0]) as the (away, home) pair. -/
def bpGet (bp : List (Int × Int × Int)) (num : Int) : Int × Int :=
  match bp.find? fun e => e.1 = num with
  | some e => (e.2.1, e.2.2)
  | none => (0, 0)

/-- Stable insertion of x: x is placed before the first element y with
`before x y`, hence after all elements equal to it under the key order. -/
def insOne {α : Type} (before : α → α → Bool) (x : α) : List α → List α
  | [] => [x]
  | y :: ys => if before x y then x :: y :: ys else y :: insOne before x ys

/-- Stable insertion sort; with `before` the strict should-precede test this
produces the same list as the stable Python sorts used in api.py. -/
def insSortBy {α : Type} (before : α → α → Bool) : List α → List α
  | [] => []
  | x :: xs => insOne before x (insSortBy before xs)

/-- Python sorted(...) on integer period numbers. -/
def sortAsc (l : List Int) : List Int := insSortBy (fun a b => a < b) l

/-- The returned quarter table {"headers": ..., "away": ..., "home": ...}. -/
structure QuarterTable where
  headers : List String
  away : List Int
  home : List Int
deriving DecidableEq, Repr

/-- src/api.py build_quarter_scores (lines 111-151), embedded step by step:
merge the two period lists into by_period (away first, then home), read the
regulation columns 1-4, append a single OT column summing the remaining
period numbers in sorted order, then append totals (the provided team score,
else the row sum). -/
def build_quarter_scores (away_team home_team : TeamSide) : Option QuarterTable :=
  let away_periods := away_team.periods
  let home_periods := home_team.periods
  if away_periods = [] ∧ home_periods = [] then none else
  let bp0 := away_periods.foldl (fun bp p => bpSet true bp (effNum p) (effScore p)) []
  let bp := home_periods.foldl (fun bp p => bpSet false bp (effNum p) (effScore p)) bp0
  if bp = [] then none else
  let reg : List Int := [1, 2, 3, 4]
  let ot_periods := sortAsc ((bp.map (·.1)).filter fun k => ¬ k ∈ reg)
  let headers0 := ["Q1", "Q2", "Q3", "Q4"]
  let away0 := reg.map fun i => (bpGet bp i).1
  let home0 := reg.map fun i => (bpGet bp i).2
  let headers1 := if ot_periods ≠ [] then headers0 ++ ["OT"] else headers0
  let away1 := if ot_periods ≠ [] then
      away0 ++ [(ot_periods.map fun k => (bpGet bp k).1).sum] else away0
  let home1 := if ot_periods ≠ [] then
      home0 ++ [(ot_periods.map fun k => (bpGet bp k).2).sum] else home0
  let away_total := away_team.score.getD away1.sum
  let home_total := home_team.score.getD home1.sum
  some ⟨headers1 ++ ["Total"], away1 ++ [away_total], home1 ++ [home_total]⟩

/-- Specification-side reference (for the refinement statement of claim C6,
phrased from the spec wording): the score a team list records for period
number n is that of the LAST entry whose effective number is n (later entries
overwrite earlier ones in by_period), and 0 when no entry has number n. -/
def lastScore (l : List PeriodEntry) (n : Int) : Int :=
  match l.reverse.find? fun p => effNum p = n with
  | some p => effScore p
  | none => 0

/-- Spec side: does some entry of l have effective period number n. -/
def numPresent (l : List PeriodEntry) (n : Int) : Bool := l.any fun p => effNum p = n

/-- Spec side: the set of period numbers outside regulation 1-4 occurring in
either team list (the numbers summed into the OT column). -/
def otNums (away home : TeamSide) : Finset Int :=
  (((away.periods ++ home.periods).map effNum).toFinset).filter
    fun n => ¬ (n = 1 ∨ n = 2 ∨ n = 3 ∨ n = 4)

/-- Spec side: the four regulation cells of one team row. -/
def specRegRow (l : List PeriodEntry) : List Int := [1, 2, 3, 4].map (lastScore l)

/-- Spec side: the OT cell of one team row, the sum over all non-regulation
period numbers of the score recorded for that team. -/
def specOt (away home : TeamSide) (l : List PeriodEntry) : Int :=
  ∑ n ∈ otNums away home, lastScore l n

/-- Spec side: one team row without the total column. -/
def specCells (away home : TeamSide) (l : List PeriodEntry) : List Int :=
  specRegRow l ++ (if otNums away home = ∅ then [] else [specOt away home l])

/-- Spec side: one full team row: cells then the total, the provided score or
the sum of the period columns. -/
def specRow (away home : TeamSide) (side : TeamSide) : List Int :=
  specCells away home side.periods ++
    [side.score.getD (specCells away home side.periods).sum]

/-- Spec side: the expected header row. -/
def specHeaders (away home : TeamSide) : List String :=
  if otNums away home = ∅ then ["Q1", "Q2", "Q3", "Q4", "Total"]
  else ["Q1", "Q2", "Q3", "Q4", "OT", "Total"]

/-- One scoreboard game record, abstract: the facade never inspects games. -/
abbrev GameRow := String

/-- One standings DataFrame record, abstract: the facade only tests list
emptiness when hydrating and storing. -/
abbrev StandRow := String

/-- One league-leaders entry (PLAYER, TEAM, stat value). -/
abbrev Leader := String × String × Int

/-- Return type of fetch_games: (games list, scoreboard date). -/
abbrev GamesResult := List GameRow × String

/-- Return type of fetch_standings: the two conference tables, each None when
absent or empty (empty DataFrames are normalized to None). -/
abbrev StandingsResult := Option (List StandRow) × Option (List StandRow)

/-- Return type of fetch_league_leaders: a dict in insertion order from
category name to leader list. -/
abbrev LeadersResult := List (String × List Leader)

/-- The JSON value stored in a games:<date> disk file.  `pair` is the shape
_disk_cache_set writes for fetch_games, a 2-element array that passes the
isinstance-list/len ≥ 2 check of the offline reader; `malformed` any other
JSON shape, which fails it. -/
inductive GamesDiskVal where
  | pair (games : List GameRow) (date : String)
  | malformed
deriving DecidableEq, Repr

/-- The JSON value stored in the standings disk file.  `dict east west` is an
object with the two record lists; `malformed` any other shape (its hydration
raises and is swallowed). -/
inductive StandingsDiskVal where
  | dict (east west : List StandRow)
  | malformed
deriving DecidableEq, Repr

/-- The JSON value stored in the league_leaders disk file.  `dict` is an
object from category to entry list (the per-entry list/tuple conversion is
the identity here); `malformed` any other shape. -/
inductive LeadersDiskVal where
  | dict (entries : List (String × List Leader))
  | malformed
deriving DecidableEq, Repr

/-- The cache directory: one optional file per key used by the claims
(games:<date> keys, standings, league_leaders). -/
structure DiskStore where
  games : List (String × DiskFile GamesDiskVal)
  standings : Option (DiskFile StandingsDiskVal)
  leaders : Option (DiskFile LeadersDiskVal)
deriving DecidableEq, Repr

/-- Association-list lookup by string key (the dict/TTLCache lookups). -/
def alookup {β : Type} (l : List (String × β)) (k : String) : Option β :=
  match l.find? fun p => p.1 = k with
  | some p => some p.2
  | none => none

/-- Association-list insert/overwrite by string key. -/
def aset {β : Type} (l : List (String × β)) (k : String) (v : β) : List (String × β) :=
  if l.any fun p => p.1 = k then
    l.map fun p => if p.1 = k then (k, v) else p
  else l ++ [(k, v)]

/-- The mutable fields of ApiClient (src/api.py lines 164-174).  The TTLCache
tiers appear as maps in which expired entries are identified with absent
ones; _cache_get returns the mapped value or None, _cache_set overwrites. -/
structure ClientState where
  memGames : List (String × GamesResult)
  memStandings : Option StandingsResult
  memLeaders : Option LeadersResult
  lastError : Option String
  lastRequestTime : ℚ
  lastGamesFromCache : Bool
  lastStandingsFromCache : Bool
  lastLeadersFromCache : Bool
  disk : DiskStore
deriving DecidableEq, Repr

/-- One game-log row of a TeamGameLog frame, with the columns
fetch_head_to_head reads. -/
structure LogRow where
  gameDate : String
  matchup : String
  wl : String
  pts : Int
deriving DecidableEq, Repr

/-- The remote adapter and the clock, fixed for the duration of one facade
call.  Each field is the (deterministic) outcome the corresponding remote
thunk would produce during this call, raised errors as .error; the read of
the undefined constants.REQUEST_TIMEOUT inside each thunk is folded into
that outcome (in the source it makes every thunk raise AttributeError, the
instantiation with all-error fields; the .ok outcomes model the endpoints
as the spec intends them).  fetch_head_to_head, whose RESULT SHAPE depends
on where that read raises, models the read explicitly instead.
tripleDoubleLeaders is total because _fetch_triple_double_leaders catches
every exception internally and returns a list. -/
structure Env where
  now : ℚ
  today : String
  live : Except PyErr GamesResult
  sbv3 : String → Except PyErr GamesResult
  standingsRemote : Except PyErr StandingsResult
  leadersPts : Except PyErr (List Leader)
  leadersReb : Except PyErr (List Leader)
  leadersAst : Except PyErr (List Leader)
  tripleDoubleLeaders : List Leader
  teamLog : ℕ → Except PyErr (List LogRow)

/-- ApiClient._rate_limit (lines 184-191) with time explicit: invoked at
wall-clock time now with stored last request time last, it returns (and
records as the new last request time) the instant at which the method hands
control back: after a sleep of MIN_INTERVAL - elapsed when elapsed <
MIN_INTERVAL, immediately otherwise. -/
def rate_limit_return (now last : ℚ) : ℚ :=
  if now - last < RATE_LIMIT_MIN_INTERVAL then last + RATE_LIMIT_MIN_INTERVAL else now

/-- The _do thunk of fetch_games (lines 247-259): for today (or no explicit
date) try the live scoreboard first and on any failure fall through to
ScoreboardV3 for the date; the V3 response parsing with string-key defaults,
and the constants.REQUEST_TIMEOUT reads of lines 250 and 254 (always raising
in the source), are folded into the adapter outcomes. -/
def gamesThunk (env : Env) (game_date : Option String) (date_str : String) :
    Except PyErr GamesResult :=
  if game_date = none ∨ date_str = env.today then
    match env.live with
    | .ok v => .ok v
    | .error _ => env.sbv3 date_str
  else env.sbv3 date_str

/-- src/api.py ApiClient.fetch_games (lines 239-276).  Returns what the
caller observes: .ok result, or .error e when an exception escapes — which
happens on the offline-fallback path, where the except handler itself raises
AttributeError reading constants.CACHE_TTL_OFFLINE.  The state is returned in
both cases since the Python object mutations survive the raise.  Disk writes
use env.now as the timestamp; the retried thunk is deterministic within one
call, so _with_retry is applied to the constant thunk outcome. -/
def fetch_games (env : Env) (game_date : Option String) (st : ClientState) :
    Except PyErr GamesResult × ClientState :=
  let date_str := game_date.getD env.today
  let cache_key := "games:" ++ date_str
  match alookup st.memGames cache_key with
  | some cached => (.ok cached, st)
  | none =>
    let st := { st with lastError := none, lastGamesFromCache := false,
                        lastRequestTime := rate_limit_return env.now st.lastRequestTime }
    match (with_retry fun _ => gamesThunk env game_date date_str).1 with
    | .ok result =>
      let st := { st with
        memGames := aset st.memGames cache_key result,
        disk := { st.disk with
          games := aset st.disk.games cache_key
            (.record env.now (.pair result.1 result.2)) } }
      (.ok result, st)
    | .error e =>
      let st := { st with lastError := some (user_facing_error e "Games") }
      match CACHE_TTL_OFFLINE with
      | .error e2 => (.error e2, st)
      | .ok ttl =>
        match disk_cache_get_offline (alookup st.disk.games cache_key) env.now ttl with
        | some (.pair g d) => (.ok (g, d), { st with lastGamesFromCache := true })
        | _ => (.ok ([], date_str), st)

/-- Hydration of a standings disk object (lines 282-287 and 322-327): a
conference list becomes None when empty (falsy list, or DataFrame normalized
to None when empty), otherwise the list itself. -/
def hydrateStandings (east west : List StandRow) : StandingsResult :=
  ((if east ≠ [] then some east else none), (if west ≠ [] then some west else none))

/-- src/api.py ApiClient.fetch_standings (lines 278-333).  Short-TTL disk
read first, then memory, then the network path; on remote failure the except
handler classifies the error and then raises AttributeError reading
constants.CACHE_TTL_OFFLINE before it can attempt the offline read. -/
def fetch_standings (env : Env) (st : ClientState) :
    Except PyErr StandingsResult × ClientState :=
  match disk_cache_get st.disk.standings env.now CACHE_TTL_STANDINGS with
  | some (.dict e w) => (.ok (hydrateStandings e w), st)
  | some .malformed | none =>
    match st.memStandings with
    | some cached => (.ok cached, st)
    | none =>
      let st := { st with lastError := none, lastStandingsFromCache := false,
                          lastRequestTime := rate_limit_return env.now st.lastRequestTime }
      match (with_retry fun _ => env.standingsRemote).1 with
      | .ok result =>
        let storedEast := match result.1 with
          | some l => if l ≠ [] then l else []
          | none => []
        let storedWest := match result.2 with
          | some l => if l ≠ [] then l else []
          | none => []
        let st := { st with
          memStandings := some result,
          disk := { st.disk with
            standings := some (.record env.now (.dict storedEast storedWest)) } }
        (.ok result, st)
      | .error e =>
        let st := { st with lastError := some (user_facing_error e "Standings") }
        match CACHE_TTL_OFFLINE with
        | .error e2 => (.error e2, st)
        | .ok ttl =>
          match disk_cache_get_offline st.disk.standings env.now ttl with
          | some (.dict de dw) =>
            let h := hydrateStandings de dw
            if h.1 ≠ none ∨ h.2 ≠ none then
              (.ok h, { st with lastStandingsFromCache := true })
            else (.ok (none, none), st)
          | _ => (.ok (none, none), st)

/-- src/api.py ApiClient.fetch_league_leaders (lines 363-409).  Short-TTL
disk read, then memory, then the network path: each of the three stat
categories is fetched under its own try/except (a failure leaves that list
empty), the triple-double list never raises, and the surrounding try/except
of the network path is therefore never entered, so the operation neither
touches last-error nor reaches its own offline-fallback code. -/
def fetch_league_leaders (env : Env) (st : ClientState) :
    Except PyErr LeadersResult × ClientState :=
  match disk_cache_get st.disk.leaders env.now CACHE_TTL_LEAGUE_LEADERS with
  | some (.dict entries) => (.ok entries, st)
  | some .malformed | none =>
    match st.memLeaders with
    | some cached => (.ok cached, st)
    | none =>
      let st := { st with lastLeadersFromCache := false,
                          lastRequestTime := rate_limit_return env.now st.lastRequestTime }
      let pts := match (with_retry fun _ => env.leadersPts).1 with
        | .ok l => l | .error _ => []
      let reb := match (with_retry fun _ => env.leadersReb).1 with
        | .ok l => l | .error _ => []
      let ast := match (with_retry fun _ => env.leadersAst).1 with
        | .ok l => l | .error _ => []
      let tdbl := match (with_retry fun _ =>
          (.ok env.tripleDoubleLeaders : Except PyErr (List Leader))).1 with
        | .ok l => l | .error _ => []
      let result : LeadersResult := [("PTS", pts), ("REB", reb), ("AST", ast), ("TDBL", tdbl)]
      let st := { st with
        memLeaders := some result,
        disk := { st.disk with leaders := some (.record env.now (.dict result)) } }
      (.ok result, st)

/-- src/constants.py TRICODE_TO_TEAM_ID (lines 44-54), in source order. -/
def TRICODE_TO_TEAM_ID : List (String × ℕ) :=
  [("ATL", 1610612737), ("BOS", 1610612738), ("BKN", 1610612751), ("CHA", 1610612766),
   ("CHI", 1610612741), ("CLE", 1610612739), ("DAL", 1610612742), ("DEN", 1610612743),
   ("DET", 1610612765), ("GSW", 1610612744), ("HOU", 1610612745), ("IND", 1610612754),
   ("LAC", 1610612746), ("LAL", 1610612747), ("MEM", 1610612763), ("MIA", 1610612748),
   ("MIL", 1610612749), ("MIN", 1610612750), ("NOP", 1610612740), ("NYK", 1610612752),
   ("OKC", 1610612760), ("ORL", 1610612753), ("PHI", 1610612755), ("PHX", 1610612756),
   ("POR", 1610612757), ("SAC", 1610612758), ("SAS", 1610612759), ("TOR", 1610612761),
   ("UTA", 1610612762), ("WAS", 1610612764)]

/-- The reverse lookup next((t for t, tid in ... if tid == team_id), None)
of fetch_head_to_head. -/
def tricodeFor (team_id : ℕ) : Option String :=
  (TRICODE_TO_TEAM_ID.find? fun p => p.2 = team_id).map (·.1)

/-- Does the character list s start with pat. -/
def charsStart (pat s : List Char) : Bool :=
  match pat, s with
  | [], _ => true
  | _ :: _, [] => false
  | p :: ps, c :: cs => p = c && charsStart ps cs

/-- Split a character list at the first occurrence of the (non-empty)
separator: some (before, after) when the separator occurs, none otherwise. -/
def breakFirst (sep : List Char) : List Char → Option (List Char × List Char)
  | [] => none
  | c :: cs =>
    if charsStart sep (c :: cs) then some ([], (c :: cs).drop sep.length)
    else
      match breakFirst sep cs with
      | some (b, a) => some (c :: b, a)
      | none => none

/-- Python s.split(sep)[1] for a non-empty separator: the segment after the
first occurrence of sep and before the next one; none when sep does not
occur (so Python `sep in s` is the isSome test). -/
def splitPiece1 (sep s : List Char) : Option (List Char) :=
  match breakFirst sep s with
  | none => none
  | some (_, rest) =>
    match breakFirst sep rest with
    | none => some rest
    | some (b, _) => some b

/-- Python str.strip(): drop whitespace from both ends. -/
def trimChars (l : List Char) : List Char :=
  ((l.dropWhile Char.isWhitespace).reverse.dropWhile Char.isWhitespace).reverse

/-- The opponent code parsed out of a MATCHUP string (lines 538-539): the
stripped piece after " vs. " when that separator occurs, else the stripped
piece after " @ ", else the empty string.  String splitting is embedded on
the underlying character lists. -/
def matchupOpponent (matchup : String) : String :=
  match splitPiece1 " vs. ".data matchup.data with
  | some piece => ⟨trimChars piece⟩
  | none =>
    match splitPiece1 " @ ".data matchup.data with
    | some piece => ⟨trimChars piece⟩
    | none => ""

/-- One games_b entry (date, win-loss, points of team B). -/
structure GameB where
  gameDate : String
  wl : String
  pts : Int
deriving DecidableEq, Repr

/-- The last_meeting object of fetch_head_to_head. -/
structure LastMeeting where
  date : String
  matchup : String
  wlA : String
  ptsA : Int
  ptsB : Option Int
deriving DecidableEq, Repr

/-- The dict returned by fetch_head_to_head: last_meeting plus the
season_series fields wins_a, wins_b, games. -/
structure H2HResult where
  lastMeeting : Option LastMeeting
  winsA : ℕ
  winsB : ℕ
  games : List LogRow
deriving DecidableEq, Repr

/-- The neutral zero-value structure out is set to on entry (line 526). -/
def h2hNeutral : H2HResult := ⟨none, 0, 0, []⟩

/-- games_a.sort(key=GAME_DATE, reverse=True): a stable descending sort by
the date string, realized by stable insertion with the strict key test. -/
def sortByDateDesc (l : List LogRow) : List LogRow :=
  insSortBy (fun a b => b.gameDate < a.gameDate) l

/-- src/api.py ApiClient.fetch_head_to_head (lines 521-578).  After the
tricode lookups and the first rate-limit wait, line 533 constructs
teamgamelog.TeamGameLog with timeout=constants.REQUEST_TIMEOUT: that
argument evaluation reads the undefined module attribute and raises, the
outer except handler (line 576) swallows it, and the out dict as set on
entry — the neutral zero structure — is returned; line 553 performs the
same read before the team B log.  Both reads are modelled explicitly here
because the RESULT of this operation depends on where they raise; the
branches below them embed the rest of the source text faithfully (were the
constructions to succeed, a failure of the second fetch would return out
with the A-side fields already filled in, and the retried log reads collapse
to the deterministic adapter outcome). -/
def fetch_head_to_head (env : Env) (team_id_a team_id_b : ℕ) (st : ClientState) :
    H2HResult × ClientState :=
  match tricodeFor team_id_b, tricodeFor team_id_a with
  | some tricode_b, some tricode_a =>
    let st := { st with lastRequestTime := rate_limit_return env.now st.lastRequestTime }
    match REQUEST_TIMEOUT with
    | .error _ => (h2hNeutral, st)
    | .ok _ =>
      match (with_retry fun _ => env.teamLog team_id_a).1 with
      | .error _ => (h2hNeutral, st)
      | .ok rows_a =>
        let games_a := rows_a.filter fun r => matchupOpponent r.matchup = tricode_b
        if games_a = [] then (h2hNeutral, st)
        else
          let games_a := sortByDateDesc games_a
          let out := { h2hNeutral with
            games := games_a, winsA := games_a.countP fun g => g.wl = "W" }
          let st := { st with
            lastRequestTime := rate_limit_return env.now st.lastRequestTime }
          match REQUEST_TIMEOUT with
          | .error _ => (out, st)
          | .ok _ =>
            match (with_retry fun _ => env.teamLog team_id_b).1 with
            | .error _ => (out, st)
            | .ok rows_b =>
              let games_b :=
                (rows_b.filter fun r => matchupOpponent r.matchup = tricode_a).map
                  fun r => (⟨r.gameDate, r.wl, r.pts⟩ : GameB)
              let out := { out with winsB := games_b.countP fun g => g.wl = "W" }
              match games_a with
              | [] => (out, st)
              | g :: _ =>
                let ptsB := (games_b.find? fun gb => gb.gameDate = g.gameDate).map (·.pts)
                ({ out with
                   lastMeeting := some ⟨g.gameDate, g.matchup, g.wl, g.pts, ptsB⟩ }, st)
  | _, _ => (h2hNeutral, st)

/-- The return instants of a sequence of _rate_limit calls: given the stored
last request time and the wall-clock instants of the successive calls, each
call returns at rate_limit_return and that instant becomes the stored time
for the next call. -/
def acquireSeq (last : ℚ) : List ℚ → List ℚ
  | [] => []
  | t :: ts =>
    let r := rate_limit_return t last
    r :: acquireSeq r ts

/-- The calls are sequential: each call is made no earlier than the previous
return (and the first no earlier than the stored initial timestamp). -/
def callsSequential (last : ℚ) : List ℚ → Bool
  | [] => true
  | t :: ts => decide (last ≤ t) && callsSequential (rate_limit_return t last) ts

/-- A typical connectivity failure raised by the remote adapter. -/
def errNet : PyErr := .exc "Connection refused by host" "ConnectionError"

/-- An environment in which every network call fails with errNet (and the
triple-double helper, which swallows its failures, yields the empty list). -/
def envFail : Env :=
  { now := 1000
    today := "2025-02-16"
    live := .error errNet
    sbv3 := fun _ => .error errNet
    standingsRemote := .error errNet
    leadersPts := .error errNet
    leadersReb := .error errNet
    leadersAst := .error errNet
    tripleDoubleLeaders := []
    teamLog := fun _ => .error errNet }

/-- Fresh cold-start client state: empty caches, no recorded error. -/
def stCold : ClientState :=
  { memGames := []
    memStandings := none
    memLeaders := none
    lastError := none
    lastRequestTime := 0
    lastGamesFromCache := false
    lastStandingsFromCache := false
    lastLeadersFromCache := false
    disk := { games := [], standings := none, leaders := none } }

/-- The all-failing environment at a later instant, for stale-disk runs. -/
def envFail5000 : Env := { envFail with now := 5000 }

/-- A state whose disk records are older than the short TTLs (age 100 > 90
for the games key, age 4000 > 3600 for standings at instant 5000) yet
present and well-formed, with empty memory tiers. -/
def stStaleDisk : ClientState :=
  { stCold with
    disk :=
      { games := [("games:2025-02-16", .record 4900 (.pair ["G1"] "2025-02-16"))]
        standings := some (.record 1000 (.dict ["EROW"] ["WROW"]))
        leaders := none } }

/-- A state holding both a live memory entry for standings and a fresh
(age 10 < 3600 at instant 5000) well-formed standings disk record carrying
different data, for the cache-order counterexample. -/
def stDiskAndMem : ClientState :=
  { stCold with
    memStandings := some (some ["MROW"], some ["MROW2"])
    disk := { games := [], standings := some (.record 4990 (.dict ["DROW"] [])), leaders := none } }

/-- An environment in which the league-leaders categories succeed. -/
def envLeadersOk : Env :=
  { envFail with
    leadersPts := .ok [("LeBron James", "LAL", 30)]
    leadersReb := .ok [("Nikola Jokic", "DEN", 13)]
    leadersAst := .ok [("Trae Young", "ATL", 11)] }

/-- A state with a stale recorded last-error and all caches empty. -/
def stErrStale : ClientState := { stCold with lastError := some "stale" }

/-- The team A (Lakers) game log of the repository integration test
test_fetch_head_to_head_structure (src/tests/test_api_integration.py). -/
def testLogA : List LogRow :=
  [⟨"2025-02-01", "LAL vs. BOS", "W", 110⟩, ⟨"2024-12-15", "LAL @ BOS", "L", 98⟩]

/-- The team B (Celtics) game log of the same integration test. -/
def testLogB : List LogRow :=
  [⟨"2025-02-01", "BOS vs. LAL", "L", 108⟩, ⟨"2024-12-15", "BOS @ LAL", "W", 105⟩]

/-- An environment serving the integration-test game logs for both teams:
two shared Lakers-Celtics meetings, the most recent dated 2025-02-01. -/
def envH2HTest : Env :=
  { envFail with
    teamLog := fun tid => if tid = 1610612747 then .ok testLogA else .ok testLogB }

theorem retryFrom_3_0 {α : Type} (op : ℕ → Except PyErr α) :
    retryFrom op 3 0 = (op 3, []) := rfl

theorem retryFrom_2_1 {α : Type} (op : ℕ → Except PyErr α) :
    retryFrom op 2 1 =
      match op 2 with
      | .ok v => (.ok v, [])
      | .error _ =>
        ((retryFrom op 3 0).1, wait_exponential 1 1 10 2 :: (retryFrom op 3 0).2) := rfl

theorem retryFrom_1_2 {α : Type} (op : ℕ → Except PyErr α) :
    retryFrom op 1 2 =
      match op 1 with
      | .ok v => (.ok v, [])
      | .error _ =>
        ((retryFrom op 2 1).1, wait_exponential 1 1 10 1 :: (retryFrom op 2 1).2) := rfl

theorem with_retry_eq {α : Type} (op : ℕ → Except PyErr α) : with_retry op =
    match op 1 with
    | .ok v => (.ok v, ([] : List ℚ))
    | .error _ =>
      match op 2 with
      | .ok v => (.ok v, [1])
      | .error _ =>
        match op 3 with
        | .ok v => (.ok v, [1, 2])
        | .error e => (.error e, [1, 2]) := by
  have w1 : wait_exponential 1 1 10 1 = 1 := by
    unfold wait_exponential; norm_num
  have w2 : wait_exponential 1 1 10 2 = 2 := by
    unfold wait_exponential; norm_num
  cases hop1 : op 1 <;> cases hop2 : op 2 <;> cases hop3 : op 3 <;>
    simp only [with_retry, retryFrom_1_2, retryFrom_2_1, retryFrom_3_0,
      hop1, hop2, hop3, w1, w2]

theorem with_retry_const {α : Type} (r : Except PyErr α) :
    (with_retry fun _ => r).1 = r := by
  cases r <;> simp [with_retry_eq]

theorem append_ne_empty_left (a b : String) (h : a ≠ "") : a ++ b ≠ "" := by
  intro hab
  apply h
  have hlen : (a ++ b).length = 0 := by rw [hab]; rfl
  rw [String.length_append] at hlen
  have : a.length = 0 := by omega
  cases a with
  | mk data =>
    cases data with
    | nil => rfl
    | cons c cs => simp [String.length, List.length] at this

theorem user_facing_error_ne (e : PyErr) (pfx : String) (h : pfx ≠ "") :
    user_facing_error e pfx ≠ "" := by
  unfold user_facing_error
  dsimp only
  split_ifs <;>
    first
      | decide
      | exact append_ne_empty_left _ _ (append_ne_empty_left _ _ (append_ne_empty_left _ _ h))
      | exact append_ne_empty_left _ _ (append_ne_empty_left _ _ h)

theorem insOne_perm {α : Type} (bef : α → α → Bool) (x : α) (l : List α) :
    (insOne bef x l).Perm (x :: l) := by
  induction l with
  | nil => exact List.Perm.refl _
  | cons y ys ih =>
    unfold insOne
    split
    · exact List.Perm.refl _
    · exact (ih.cons y).trans (List.Perm.swap x y ys)

theorem insSortBy_perm {α : Type} (bef : α → α → Bool) (l : List α) :
    (insSortBy bef l).Perm l := by
  induction l with
  | nil => exact List.Perm.refl _
  | cons x xs ih => exact (insOne_perm bef x (insSortBy bef xs)).trans (ih.cons x)

theorem rate_limit_gap (now last : ℚ) (h : last ≤ now) :
    RATE_LIMIT_MIN_INTERVAL ≤ rate_limit_return now last - last := by
  unfold rate_limit_return
  split_ifs with hc
  · linarith
  · linarith [not_lt.mp hc]

/-- Claim C2: with_retry attempts the thunk at most 3 times (its outcome only
depends on the first three attempt results); the wait slept between attempt n
and attempt n+1 is min(10s, 1s * 2^(n-1)); the total slept wait never exceeds
11s; and when all three attempts fail the waits are exactly 1s then 2s (total
3s) and the exception of the third attempt propagates unchanged. -/
theorem c2_with_retry {α : Type} (op op' : ℕ → Except PyErr α) :
    ((∀ n, n ≤ 3 → op n = op' n) → with_retry op = with_retry op') ∧
    (with_retry op).2.length ≤ 2 ∧
    ((with_retry op).2 =
      (List.range (with_retry op).2.length).map fun i => min ((1 : ℚ) * 2 ^ i) 10) ∧
    (with_retry op).2.sum ≤ 11 ∧
    (∀ e1 e2 e3, op 1 = .error e1 → op 2 = .error e2 → op 3 = .error e3 →
      with_retry op = (.error e3, [1, 2]) ∧ (with_retry op).2.sum = 3) :=
  by
  refine ⟨?_, ?_, ?_, ?_, ?_⟩
  · intro h
    rw [with_retry_eq op, with_retry_eq op', h 1 (by norm_num), h 2 (by norm_num),
      h 3 (by norm_num)]
  · rw [with_retry_eq]
    rcases op 1 with v | e <;> rcases op 2 with v2 | e2 <;> rcases op 3 with v3 | e3 <;> simp
  · rw [with_retry_eq]
    rcases op 1 with v | e <;> rcases op 2 with v2 | e2 <;> rcases op 3 with v3 | e3 <;>
      norm_num [List.range_succ]
  · rw [with_retry_eq]
    rcases op 1 with v | e <;> rcases op 2 with v2 | e2 <;> rcases op 3 with v3 | e3 <;>
      norm_num
  · intro e1 e2 e3 h1 h2 h3
    rw [with_retry_eq op, h1, h2, h3]
    norm_num

/-- Witness for C2 at a thunk that always fails with a connection error. -/
theorem c2_with_retry_witness :
    with_retry (fun _ => (.error errNet : Except PyErr ℕ)) = (.error errNet, [1, 2]) ∧
    with_retry (fun _ => (.error errNet : Except PyErr ℕ)) =
      with_retry (fun _ => .error errNet) :=
  ⟨((c2_with_retry (fun _ => .error errNet) fun _ => .error errNet).2.2.2.2
      errNet errNet errNet rfl rfl rfl).1,
   (c2_with_retry (fun _ => .error errNet) fun _ => .error errNet).1 fun _ _ => rfl⟩

/-- Claim C5: the standard disk read returns None exactly when the file is
missing, corrupt, or its age is at least the TTL, and otherwise the stored
data; the offline read is the same with the looser validity age <= maxAge,
returning None exactly when missing, corrupt, or age > maxAge. -/
theorem c5_disk_reads {α : Type} (file : Option (DiskFile α)) (now ttl maxAge : ℚ) :
    (disk_cache_get file now ttl = none ↔
      file = none ∨ file = some .corrupt ∨
        ∃ ts data, file = some (.record ts data) ∧ now - ts ≥ ttl) ∧
    (∀ ts data, file = some (.record ts data) → now - ts < ttl →
      disk_cache_get file now ttl = some data) ∧
    (disk_cache_get_offline file now maxAge = none ↔
      file = none ∨ file = some .corrupt ∨
        ∃ ts data, file = some (.record ts data) ∧ now - ts > maxAge) ∧
    (∀ ts data, file = some (.record ts data) → now - ts ≤ maxAge →
      disk_cache_get_offline file now maxAge = some data) := by
  rcases file with _ | f
  · simp [disk_cache_get, disk_cache_get_offline]
  · rcases f with _ | ⟨ts, data⟩
    · simp [disk_cache_get, disk_cache_get_offline]
    · refine ⟨?_, ?_, ?_, ?_⟩
      · by_cases h : now - ts ≥ ttl <;>
          simp [disk_cache_get, h] <;> intros <;> linarith
      · intro ts' data' he hlt
        injection he with he2
        injection he2 with hts hdata
        subst hts; subst hdata
        simp [disk_cache_get, not_le.mpr hlt]
      · by_cases h : now - ts > maxAge <;>
          simp [disk_cache_get_offline, h] <;> intros <;> linarith
      · intro ts' data' he hle
        injection he with he2
        injection he2 with hts hdata
        subst hts; subst hdata
        simp [disk_cache_get_offline, not_lt.mpr hle]

/-- Witness for C5 at a record of age 10 read with TTL 50 and max age 200. -/
theorem c5_disk_reads_witness :
    disk_cache_get (some (.record 10 (7 : ℕ))) 20 50 = some 7 ∧
    disk_cache_get_offline (some (.record 10 (7 : ℕ))) 20 200 = some 7 :=
  ⟨(c5_disk_reads (some (.record 10 7)) 20 50 200).2.1 10 7 rfl (by norm_num),
   (c5_disk_reads (some (.record 10 7)) 20 50 200).2.2.2 10 7 rfl (by norm_num)⟩

/-- Claim C9: when each _rate_limit call is made no earlier than the previous
return, consecutive returns are at least MIN_INTERVAL = 0.6s apart; and a
call arriving early sleeps exactly the remainder, returning (and recording)
last + MIN_INTERVAL. -/
theorem c9_rate_limiter (last : ℚ) (ts : List ℚ) (h : callsSequential last ts = true) :
    List.Chain' (fun a b => RATE_LIMIT_MIN_INTERVAL ≤ b - a) (acquireSeq last ts) ∧
    (∀ now prev : ℚ, now - prev < RATE_LIMIT_MIN_INTERVAL →
      rate_limit_return now prev = prev + RATE_LIMIT_MIN_INTERVAL) := by
  constructor
  · induction ts generalizing last with
    | nil => simp [acquireSeq]
    | cons t rest ih =>
      unfold callsSequential at h
      rw [Bool.and_eq_true, decide_eq_true_eq] at h
      unfold acquireSeq
      rw [List.chain'_cons']
      refine ⟨?_, ih _ h.2⟩
      intro y hy
      rcases rest with _ | ⟨t', rest'⟩
      · simp [acquireSeq] at hy
      · unfold callsSequential at h
        rw [Bool.and_eq_true, decide_eq_true_eq] at h
        unfold acquireSeq at hy
        simp only [List.head?_cons, Option.mem_def, Option.some.injEq] at hy
        subst hy
        exact rate_limit_gap t' (rate_limit_return t last) h.2.1
  · intro now prev hlt
    unfold rate_limit_return
    rw [if_pos hlt]

/-- Witness for C9: three sequential calls at instants 1, 1.2 and 2 starting
from a zero timestamp. -/
theorem c9_rate_limiter_witness :
    callsSequential 0 [1, 6/5, 2] = true ∧
    List.Chain' (fun a b => RATE_LIMIT_MIN_INTERVAL ≤ b - a) (acquireSeq 0 [1, 6/5, 2]) :=
  have hseq : callsSequential 0 [1, 6/5, 2] = true := by
    norm_num [callsSequential, rate_limit_return, RATE_LIMIT_MIN_INTERVAL]
  ⟨hseq, (c9_rate_limiter 0 [1, 6/5, 2] hseq).1⟩

theorem numPresent_iff (l : List PeriodEntry) (n : Int) :
    numPresent l n = true ↔ ∃ p ∈ l, effNum p = n := by
  simp [numPresent, List.any_eq_true]

theorem lastScore_eq_zero (l : List PeriodEntry) (n : Int)
    (h : numPresent l n = false) : lastScore l n = 0 := by
  unfold lastScore
  unfold numPresent at h
  rw [List.any_eq_false] at h
  have hn : l.reverse.find? (fun p => decide (effNum p = n)) = none := by
    rw [List.find?_eq_none]
    intro x hx
    exact h x (List.mem_reverse.mp hx)
  rw [hn]

theorem lastScore_cons (p : PeriodEntry) (l : List PeriodEntry) (n : Int) :
    lastScore (p :: l) n =
      if numPresent l n then lastScore l n
      else if effNum p = n then effScore p else 0 := by
  unfold lastScore
  rw [List.reverse_cons, List.find?_append]
  cases hf : l.reverse.find? fun q => decide (effNum q = n) with
  | some q =>
    have hq := List.find?_some hf
    have hmem := List.mem_reverse.mp (List.mem_of_find?_eq_some hf)
    have hpres : numPresent l n = true :=
      (numPresent_iff l n).mpr ⟨q, hmem, by simpa using hq⟩
    simp [hpres, Option.or]
  | none =>
    have hpres : numPresent l n = false := by
      unfold numPresent
      rw [List.any_eq_false]
      intro x hx
      exact (List.find?_eq_none.mp hf) x (List.mem_reverse.mpr hx)
    by_cases hp : effNum p = n <;> simp [hpres, hp, Option.or, List.find?]

theorem bpGet_nil (n : Int) : bpGet [] n = (0, 0) := rfl

theorem bpGet_cons (x : Int × Int × Int) (l : List (Int × Int × Int)) (n : Int) :
    bpGet (x :: l) n = if x.1 = n then (x.2.1, x.2.2) else bpGet l n := by
  unfold bpGet
  by_cases h : x.1 = n
  · rw [@List.find?_cons_of_pos _ (fun e => decide (e.1 = n)) x l (decide_eq_true h), if_pos h]
  · rw [@List.find?_cons_of_neg _ (fun e => decide (e.1 = n)) x l
      (fun hc => h (of_decide_eq_true hc)), if_neg h]

theorem bpGet_map_gen (upd : Int × Int × Int → Int × Int × Int)
    (hkey : ∀ e, (upd e).1 = e.1) (bp : List (Int × Int × Int)) (m n : Int) :
    bpGet (bp.map fun e => if e.1 = m then upd e else e) n =
      if n = m then
        (match bp.find? fun e => e.1 = m with
         | some e => ((upd e).2.1, (upd e).2.2)
         | none => (0, 0))
      else bpGet bp n := by
  induction bp with
  | nil =>
    simp only [List.map_nil, bpGet_nil]
    split <;> rfl
  | cons e bp ih =>
    simp only [List.map_cons]
    by_cases hem : e.1 = m
    · rw [if_pos hem, bpGet_cons,
        @List.find?_cons_of_pos _ (fun e => decide (e.1 = m)) e bp (decide_eq_true hem), hkey]
      by_cases hen : e.1 = n
      · have hnm : n = m := hen ▸ hem
        rw [if_pos hen, if_pos hnm]
      · have hnm : ¬ n = m := fun h => hen (h ▸ hem)
        rw [if_neg hen, if_neg hnm, ih, if_neg hnm, bpGet_cons, if_neg hen]
    · rw [if_neg hem, bpGet_cons,
        @List.find?_cons_of_neg _ (fun e => decide (e.1 = m)) e bp
          (fun hc => hem (of_decide_eq_true hc))]
      by_cases hen : e.1 = n
      · have hnm : ¬ n = m := fun h => hem (hen.trans h)
        rw [if_pos hen, if_neg hnm, bpGet_cons, if_pos hen]
      · rw [if_neg hen, ih, bpGet_cons, if_neg hen]

theorem bpGet_bpSet (side : Bool) (bp : List (Int × Int × Int)) (m s n : Int) :
    bpGet (bpSet side bp m s) n =
      if n = m then
        (if side then (s, (bpGet bp m).2) else ((bpGet bp m).1, s))
      else bpGet bp n := by
  by_cases hany : (bp.any fun e => e.1 = m) = true
  · have hmap : bpSet side bp m s =
        bp.map fun e => if e.1 = m then
          (if side then (e.1, s, e.2.2) else (e.1, e.2.1, s)) else e := by
      unfold bpSet
      rw [if_pos hany]
    rw [hmap, bpGet_map_gen (fun e => if side then (e.1, s, e.2.2) else (e.1, e.2.1, s))
      (fun e => by cases side <;> simp)]
    cases side <;>
    · simp only [Bool.false_eq_true, if_false, if_true]
      cases hf : bp.find? fun e => e.1 = m with
      | some q => simp [bpGet, hf]
      | none =>
        exfalso
        obtain ⟨x, hx, hpx⟩ := (List.any_eq_true).mp hany
        exact (List.find?_eq_none.mp hf) x hx hpx
  · have hmap : bpSet side bp m s =
        bp ++ [if side then (m, s, 0) else (m, 0, s)] := by
      unfold bpSet
      rw [if_neg hany]
    have hnone : (bp.find? fun e => e.1 = m) = none := by
      rw [List.find?_eq_none]
      intro x hx hpx
      rw [Bool.not_eq_true] at hany
      exact absurd ((List.any_eq_true).mpr ⟨x, hx, hpx⟩)
        (by rw [hany]; exact Bool.false_ne_true)
    rw [hmap]
    unfold bpGet
    rw [List.find?_append]
    by_cases hnm : n = m
    · subst hnm
      rw [hnone]
      have hget : bpGet bp n = (0, 0) := by unfold bpGet; rw [hnone]
      cases side <;> simp [Option.or, List.find?, hget]
    · cases hf : bp.find? fun e => e.1 = n with
      | some q => simp [Option.or, hf, if_neg hnm]
      | none =>
        have hmn : (decide (m = n)) = false := decide_eq_false fun h => hnm h.symm
        cases side <;> simp [Option.or, hf, List.find?, if_neg hnm, hmn]

theorem numPresent_cons (p : PeriodEntry) (l : List PeriodEntry) (n : Int) :
    numPresent (p :: l) n = (decide (effNum p = n) || numPresent l n) := by
  simp [numPresent, List.any_cons]

theorem bp_foldl_get (side : Bool) (l : List PeriodEntry) (bp : List (Int × Int × Int))
    (n : Int) :
    bpGet (l.foldl (fun b p => bpSet side b (effNum p) (effScore p)) bp) n =
      if side then
        (if numPresent l n then lastScore l n else (bpGet bp n).1, (bpGet bp n).2)
      else
        ((bpGet bp n).1, if numPresent l n then lastScore l n else (bpGet bp n).2) := by
  induction l generalizing bp with
  | nil => cases side <;> simp [numPresent]
  | cons p l ih =>
    rw [List.foldl_cons, ih, bpGet_bpSet]
    by_cases hpn : n = effNum p
    · have hpn' : effNum p = n := hpn.symm
      by_cases hpl : numPresent l n = true <;>
        cases side <;>
          simp [numPresent_cons, hpn', hpl, lastScore_cons, if_pos hpn, ← hpn,
            Bool.not_eq_true]
    · have hpn' : ¬ effNum p = n := fun h => hpn h.symm
      by_cases hpl : numPresent l n = true <;>
        cases side <;>
          simp [numPresent_cons, hpn', hpl, lastScore_cons, if_neg hpn,
            Bool.not_eq_true]

theorem keys_bpSet (side : Bool) (bp : List (Int × Int × Int)) (m s : Int) :
    (bpSet side bp m s).map (fun e => e.1) =
      if (bp.any fun e => e.1 = m) = true then bp.map (fun e => e.1)
      else bp.map (fun e => e.1) ++ [m] := by
  unfold bpSet
  by_cases h : (bp.any fun e => e.1 = m) = true
  · rw [if_pos h, if_pos h, List.map_map]
    refine List.map_congr_left fun e _ => ?_
    by_cases he : e.1 = m <;> cases side <;> simp [he]
  · rw [if_neg h, if_neg h, List.map_append]
    cases side <;> simp

theorem keys_fold_mem (side : Bool) (l : List PeriodEntry) (bp : List (Int × Int × Int))
    (n : Int) :
    n ∈ (l.foldl (fun b p => bpSet side b (effNum p) (effScore p)) bp).map (fun e => e.1) ↔
      n ∈ bp.map (fun e => e.1) ∨ numPresent l n = true := by
  induction l generalizing bp with
  | nil => simp [numPresent]
  | cons p l ih =>
    rw [List.foldl_cons, ih, keys_bpSet, numPresent_cons]
    by_cases h : (bp.any fun e => e.1 = effNum p) = true
    · rw [if_pos h]
      obtain ⟨x, hx, hpx⟩ := (List.any_eq_true).mp h
      have hm : effNum p ∈ bp.map (fun e => e.1) :=
        List.mem_map.mpr ⟨x, hx, of_decide_eq_true hpx⟩
      simp only [Bool.or_eq_true, decide_eq_true_eq]
      constructor
      · rintro (h1 | h2)
        · exact Or.inl h1
        · exact Or.inr (Or.inr h2)
      · rintro (h1 | h2 | h3)
        · exact Or.inl h1
        · exact Or.inl (h2 ▸ hm)
        · exact Or.inr h3
    · rw [if_neg h]
      simp only [List.mem_append, List.mem_singleton, Bool.or_eq_true, decide_eq_true_eq]
      constructor
      · rintro ((h1 | h2) | h3)
        · exact Or.inl h1
        · exact Or.inr (Or.inl h2.symm)
        · exact Or.inr (Or.inr h3)
      · rintro (h1 | h2 | h3)
        · exact Or.inl (Or.inl h1)
        · exact Or.inl (Or.inr h2.symm)
        · exact Or.inr h3

theorem keys_fold_nodup (side : Bool) (l : List PeriodEntry) (bp : List (Int × Int × Int))
    (h : (bp.map (fun e => e.1)).Nodup) :
    ((l.foldl (fun b p => bpSet side b (effNum p) (effScore p)) bp).map
      (fun e => e.1)).Nodup := by
  induction l generalizing bp with
  | nil => exact h
  | cons p l ih =>
    rw [List.foldl_cons]
    apply ih
    rw [keys_bpSet]
    by_cases hany : (bp.any fun e => e.1 = effNum p) = true
    · rw [if_pos hany]; exact h
    · rw [if_neg hany]
      have hm : effNum p ∉ bp.map (fun e => e.1) := by
        intro hmem
        obtain ⟨x, hx, hx1⟩ := List.mem_map.mp hmem
        exact hany ((List.any_eq_true).mpr ⟨x, hx, decide_eq_true hx1⟩)
      rw [List.nodup_append]
      exact ⟨h, List.nodup_singleton _, by
        intro a ha hb
        rw [List.mem_singleton] at hb
        exact hm (hb ▸ ha)⟩

theorem sortAsc_perm (L : List Int) : (sortAsc L).Perm L :=
  insSortBy_perm _ L

theorem sortAsc_eq_nil_iff (L : List Int) : sortAsc L = [] ↔ L = [] := by
  constructor
  · intro h
    have := (sortAsc_perm L).length_eq
    rw [h] at this
    exact List.length_eq_zero.mp this.symm
  · intro h; rw [h]; rfl

theorem sum_sortAsc (L : List Int) (hnd : L.Nodup) (f : Int → Int) :
    ((sortAsc L).map f).sum = ∑ k ∈ L.toFinset, f k := by
  rw [((sortAsc_perm L).map f).sum_eq, List.sum_toFinset f hnd]

theorem build_quarter_scores_eq (away home : TeamSide) :
    build_quarter_scores away home =
      if away.periods = [] ∧ home.periods = [] then none
      else some ⟨specHeaders away home, specRow away home away, specRow away home home⟩ := by
  unfold build_quarter_scores
  dsimp only
  by_cases hboth : away.periods = [] ∧ home.periods = []
  · rw [if_pos hboth, if_pos hboth]
  · rw [if_neg hboth, if_neg hboth]
    set bp0 := away.periods.foldl (fun bp p => bpSet true bp (effNum p) (effScore p)) []
      with hbp0
    set bp := home.periods.foldl (fun bp p => bpSet false bp (effNum p) (effScore p)) bp0
      with hbpdef
    have hget : ∀ k, bpGet bp k = (lastScore away.periods k, lastScore home.periods k) := by
      intro k
      rw [hbpdef, bp_foldl_get, hbp0, bp_foldl_get]
      rcases Bool.eq_false_or_eq_true (numPresent away.periods k) with hA | hA <;>
        rcases Bool.eq_false_or_eq_true (numPresent home.periods k) with hH | hH
      · simp [hA, hH, bpGet_nil]
      · simp [hA, hH, bpGet_nil, lastScore_eq_zero _ _ hH]
      · simp [hA, hH, bpGet_nil, lastScore_eq_zero _ _ hA]
      · simp [hA, hH, bpGet_nil, lastScore_eq_zero _ _ hA, lastScore_eq_zero _ _ hH]
    have hkeysmem : ∀ k, k ∈ bp.map (fun e => e.1) ↔
        (numPresent away.periods k = true ∨ numPresent home.periods k = true) := by
      intro k
      rw [hbpdef, keys_fold_mem, hbp0, keys_fold_mem]
      simp [or_comm]
    have hnodup : (bp.map (fun e => e.1)).Nodup := by
      rw [hbpdef]
      exact keys_fold_nodup _ _ _ (by rw [hbp0]; exact keys_fold_nodup _ _ _ (by simp))
    set L := (bp.map fun e => e.1).filter (fun k => ¬ k ∈ [1, 2, 3, 4]) with hL
    have hLnodup : L.Nodup := hnodup.filter _
    have hLfin : L.toFinset = otNums away home := by
      ext k
      simp only [hL, List.mem_toFinset, List.mem_filter, hkeysmem, otNums,
        Finset.mem_filter, List.mem_map, List.mem_append, decide_eq_true_eq,
        List.mem_cons, List.not_mem_nil, numPresent_iff]
      constructor
      · rintro ⟨hpres, hreg⟩
        refine ⟨?_, ?_⟩
        · rcases hpres with ⟨p, hp, he⟩ | ⟨p, hp, he⟩
          · exact ⟨p, Or.inl hp, he⟩
          · exact ⟨p, Or.inr hp, he⟩
        · intro hcon
          apply hreg
          rcases hcon with h | h | h | h
          · exact Or.inl h
          · exact Or.inr (Or.inl h)
          · exact Or.inr (Or.inr (Or.inl h))
          · exact Or.inr (Or.inr (Or.inr (Or.inl h)))
      · rintro ⟨⟨p, hp | hp, he⟩, hreg⟩
        · exact ⟨Or.inl ⟨p, hp, he⟩, by
            rintro (h | h | h | h | h)
            · exact hreg (Or.inl h)
            · exact hreg (Or.inr (Or.inl h))
            · exact hreg (Or.inr (Or.inr (Or.inl h)))
            · exact hreg (Or.inr (Or.inr (Or.inr h)))
            · exact h⟩
        · exact ⟨Or.inr ⟨p, hp, he⟩, by
            rintro (h | h | h | h | h)
            · exact hreg (Or.inl h)
            · exact hreg (Or.inr (Or.inl h))
            · exact hreg (Or.inr (Or.inr (Or.inl h)))
            · exact hreg (Or.inr (Or.inr (Or.inr h)))
            · exact h⟩
    have hbpne : ¬ bp = [] := by
      have hpre : ∃ k, k ∈ bp.map (fun e => e.1) := by
        rcases not_and_or.mp hboth with hA | hA
        · obtain ⟨p, hp⟩ := List.exists_mem_of_ne_nil _ hA
          exact ⟨effNum p, (hkeysmem _).mpr (Or.inl ((numPresent_iff _ _).mpr ⟨p, hp, rfl⟩))⟩
        · obtain ⟨p, hp⟩ := List.exists_mem_of_ne_nil _ hA
          exact ⟨effNum p, (hkeysmem _).mpr (Or.inr ((numPresent_iff _ _).mpr ⟨p, hp, rfl⟩))⟩
      obtain ⟨k, hk⟩ := hpre
      intro hnil
      rw [hnil] at hk
      simp at hk
    rw [if_neg hbpne]
    have hregA : ([1, 2, 3, 4].map fun i => (bpGet bp i).1) = specRegRow away.periods := by
      simp [specRegRow, hget]
    have hregH : ([1, 2, 3, 4].map fun i => (bpGet bp i).2) = specRegRow home.periods := by
      simp [specRegRow, hget]
    have hsumA : ((sortAsc L).map fun k => (bpGet bp k).1).sum =
        specOt away home away.periods := by
      have he : ((sortAsc L).map fun k => (bpGet bp k).1) =
          (sortAsc L).map (lastScore away.periods) :=
        List.map_congr_left fun k _ => by rw [hget]
      rw [he, sum_sortAsc _ hLnodup, hLfin, specOt]
    have hsumH : ((sortAsc L).map fun k => (bpGet bp k).2).sum =
        specOt away home home.periods := by
      have he : ((sortAsc L).map fun k => (bpGet bp k).2) =
          (sortAsc L).map (lastScore home.periods) :=
        List.map_congr_left fun k _ => by rw [hget]
      rw [he, sum_sortAsc _ hLnodup, hLfin, specOt]
    by_cases hot : sortAsc L = []
    · have hfin : otNums away home = ∅ := by
        rw [← hLfin, List.toFinset_eq_empty_iff]
        exact (sortAsc_eq_nil_iff L).mp hot
      rw [if_neg (not_not_intro hot), if_neg (not_not_intro hot), if_neg (not_not_intro hot)]
      simp only [Option.some.injEq, QuarterTable.mk.injEq]
      refine ⟨?_, ?_, ?_⟩
      · simp [specHeaders, hfin]
      · simp [specRow, specCells, hfin, hregA]
      · simp [specRow, specCells, hfin, hregH]
    · have hfin : ¬ otNums away home = ∅ := by
        rw [← hLfin, List.toFinset_eq_empty_iff]
        exact fun h => hot ((sortAsc_eq_nil_iff L).mpr h)
      rw [if_pos hot, if_pos hot, if_pos hot]
      simp only [Option.some.injEq, QuarterTable.mk.injEq]
      refine ⟨?_, ?_, ?_⟩
      · simp [specHeaders, hfin]
      · simp [specRow, specCells, hfin, hregA, hsumA]
      · simp [specRow, specCells, hfin, hregH, hsumH]

/-- Claim C6: build_quarter_scores is a pure function of its two arguments;
it returns none exactly when neither team has any period data; otherwise the
rows are: regulation columns Q1-Q4 holding the recorded score per period
number 1-4 (0 when absent), one OT column summing every period number outside
1-4 when such numbers exist, and a Total that is the provided team score or
else the sum of the period columns (specRow/specHeaders state exactly this);
and on the worked example with away periods (1,25),(2,22) and home periods
(1,20),(2,28) and no provided totals it returns headers Q1-Q4,Total, away row
25,22,0,0,47 and home row 20,28,0,0,48. -/
theorem c6_build_quarter_scores :
    (∀ away home : TeamSide,
      (build_quarter_scores away home = none ↔
        away.periods = [] ∧ home.periods = []) ∧
      (∀ t, build_quarter_scores away home = some t →
        t.headers = specHeaders away home ∧
        t.away = specRow away home away ∧
        t.home = specRow away home home)) ∧
    build_quarter_scores ⟨[⟨some 1, some 25⟩, ⟨some 2, some 22⟩], none⟩
        ⟨[⟨some 1, some 20⟩, ⟨some 2, some 28⟩], none⟩ =
      some ⟨["Q1", "Q2", "Q3", "Q4", "Total"], [25, 22, 0, 0, 47], [20, 28, 0, 0, 48]⟩ := by
  refine ⟨fun away home => ⟨?_, ?_⟩, by decide⟩
  · rw [build_quarter_scores_eq]
    by_cases h : away.periods = [] ∧ home.periods = [] <;> simp [h]
  · intro t ht
    rw [build_quarter_scores_eq] at ht
    by_cases h : away.periods = [] ∧ home.periods = []
    · rw [if_pos h] at ht
      exact absurd ht (by simp)
    · rw [if_neg h] at ht
      injection ht with h2
      rw [← h2]
      exact ⟨rfl, rfl, rfl⟩

/-- Witness for C6: the row characterization applied at the worked example. -/
theorem c6_build_quarter_scores_witness :
    (⟨["Q1", "Q2", "Q3", "Q4", "Total"], [25, 22, 0, 0, 47], [20, 28, 0, 0, 48]⟩ :
        QuarterTable).headers =
      specHeaders ⟨[⟨some 1, some 25⟩, ⟨some 2, some 22⟩], none⟩
        ⟨[⟨some 1, some 20⟩, ⟨some 2, some 28⟩], none⟩ ∧
    (⟨["Q1", "Q2", "Q3", "Q4", "Total"], [25, 22, 0, 0, 47], [20, 28, 0, 0, 48]⟩ :
        QuarterTable).away =
      specRow ⟨[⟨some 1, some 25⟩, ⟨some 2, some 22⟩], none⟩
        ⟨[⟨some 1, some 20⟩, ⟨some 2, some 28⟩], none⟩
        ⟨[⟨some 1, some 25⟩, ⟨some 2, some 22⟩], none⟩ ∧
    (⟨["Q1", "Q2", "Q3", "Q4", "Total"], [25, 22, 0, 0, 47], [20, 28, 0, 0, 48]⟩ :
        QuarterTable).home =
      specRow ⟨[⟨some 1, some 25⟩, ⟨some 2, some 22⟩], none⟩
        ⟨[⟨some 1, some 20⟩, ⟨some 2, some 28⟩], none⟩
        ⟨[⟨some 1, some 20⟩, ⟨some 2, some 28⟩], none⟩ :=
  (c6_build_quarter_scores.1 _ _).2 _ (by decide)

/-- Claim C10 counterexample: with two away entries both mapping to effective
period 0 (an explicit 0 with score 5, then a missing period number with score
7), the earlier entry is overwritten rather than summed: the OT cell holds 7,
and the score 5 appears nowhere in the away row — refuting that every entry
with a missing/None/zero period field has its score summed into the OT
column. -/
theorem c10_counterexample :
    build_quarter_scores ⟨[⟨some 0, some 5⟩, ⟨none, some 7⟩], none⟩ ⟨[], none⟩ =
      some ⟨["Q1", "Q2", "Q3", "Q4", "OT", "Total"],
        [0, 0, 0, 0, 7, 7], [0, 0, 0, 0, 0, 0]⟩ ∧
    (5 : Int) ∉ [0, 0, 0, 0, 7, 7] := by decide

/-- Claim C10 amended: an away entry with a missing, None or zero period
field is assigned effective period number 0, which is not a regulation
period, so the table gains an OT column and the period-0 slot contributes to
the away OT sum as the summand lastScore at 0 — the score of the LAST away
entry with effective number 0, earlier such entries being overwritten rather
than summed (and not ignored only when the entry is that last one). -/
theorem c10_amended (away home : TeamSide) (p : PeriodEntry) (hp : p ∈ away.periods)
    (h0 : p.period = none ∨ p.period = some 0) :
    effNum p = 0 ∧
    (0 : Int) ∈ otNums away home ∧
    ∃ t, build_quarter_scores away home = some t ∧
      t.headers = ["Q1", "Q2", "Q3", "Q4", "OT", "Total"] ∧
      t.away = specRow away home away ∧
      specOt away home away.periods =
        lastScore away.periods 0 +
          ∑ n ∈ (otNums away home).erase 0, lastScore away.periods n := by
  have heff : effNum p = 0 := by rcases h0 with h | h <;> simp [effNum, h]
  have hmem : (0 : Int) ∈ otNums away home := by
    simp only [otNums, Finset.mem_filter, List.mem_toFinset, List.mem_map, List.mem_append]
    exact ⟨⟨p, Or.inl hp, heff⟩, by norm_num⟩
  have hne : ¬ (away.periods = [] ∧ home.periods = []) := by
    rintro ⟨h1, _⟩
    rw [h1] at hp
    exact List.not_mem_nil _ hp
  have hfin : ¬ otNums away home = ∅ := fun h => by
    rw [h] at hmem
    exact Finset.not_mem_empty _ hmem
  refine ⟨heff, hmem,
    ⟨specHeaders away home, specRow away home away, specRow away home home⟩,
    by rw [build_quarter_scores_eq, if_neg hne], ?_, rfl, ?_⟩
  · simp [specHeaders, hfin]
  · exact (Finset.add_sum_erase _ _ hmem).symm

/-- Witness for C10 amended at the counterexample input. -/
theorem c10_amended_witness :
    effNum ⟨none, some 7⟩ = 0 ∧
    (0 : Int) ∈ otNums ⟨[⟨some 0, some 5⟩, ⟨none, some 7⟩], none⟩ ⟨[], none⟩ ∧
    ∃ t, build_quarter_scores ⟨[⟨some 0, some 5⟩, ⟨none, some 7⟩], none⟩ ⟨[], none⟩ =
        some t ∧
      t.headers = ["Q1", "Q2", "Q3", "Q4", "OT", "Total"] ∧
      t.away = specRow ⟨[⟨some 0, some 5⟩, ⟨none, some 7⟩], none⟩ ⟨[], none⟩
        ⟨[⟨some 0, some 5⟩, ⟨none, some 7⟩], none⟩ ∧
      specOt ⟨[⟨some 0, some 5⟩, ⟨none, some 7⟩], none⟩ ⟨[], none⟩
          [⟨some 0, some 5⟩, ⟨none, some 7⟩] =
        lastScore [⟨some 0, some 5⟩, ⟨none, some 7⟩] 0 +
          ∑ n ∈ (otNums ⟨[⟨some 0, some 5⟩, ⟨none, some 7⟩], none⟩ ⟨[], none⟩).erase 0,
            lastScore [⟨some 0, some 5⟩, ⟨none, some 7⟩] n :=
  c10_amended ⟨[⟨some 0, some 5⟩, ⟨none, some 7⟩], none⟩ ⟨[], none⟩ ⟨none, some 7⟩
    (by decide) (Or.inl rfl)

/-- Claim C1 (code-bug demonstration): with every remote call failing and all
caches empty, fetch_league_leaders returns the all-empty category dict
without raising, but fetch_games and fetch_standings RAISE AttributeError to
their caller instead of returning ([], date) and (None, None): their except
handlers read the undefined module attribute constants.CACHE_TTL_OFFLINE
before they can return the degraded value.  The classified non-empty
last-error is still recorded before the raise. -/
theorem c1_total_failure :
    (fetch_games envFail (some "2025-02-16") stCold).1 = .error .attributeError ∧
    (fetch_standings envFail stCold).1 = .error .attributeError ∧
    (fetch_league_leaders envFail stCold).1 =
      .ok [("PTS", []), ("REB", []), ("AST", []), ("TDBL", [])] ∧
    (fetch_games envFail (some "2025-02-16") stCold).2.lastError =
      some (user_facing_error errNet "Games") ∧
    (fetch_standings envFail stCold).2.lastError =
      some (user_facing_error errNet "Standings") ∧
    user_facing_error errNet "Games" ≠ "" ∧
    user_facing_error errNet "Standings" ≠ "" :=
  ⟨rfl, rfl, rfl, rfl, rfl,
   user_facing_error_ne errNet "Games" (by decide),
   user_facing_error_ne errNet "Standings" (by decide)⟩

/-- Claim C4 (code-bug demonstration): with a populated well-formed disk
record older than the short TTL but still recent (games record age 100 > 90,
standings record age 4000 > 3600 at instant 5000) and the remote call
failing, fetch_games and fetch_standings raise AttributeError instead of
returning the record data with lastFromCache set: the offline disk read is
dead code behind the undefined constants.CACHE_TTL_OFFLINE. -/
theorem c4_offline_fallback_raises :
    (fetch_games envFail5000 (some "2025-02-16") stStaleDisk).1 = .error .attributeError ∧
    (fetch_standings envFail5000 stStaleDisk).1 = .error .attributeError ∧
    (fetch_games envFail5000 (some "2025-02-16") stStaleDisk).2.lastGamesFromCache =
      false ∧
    (fetch_standings envFail5000 stStaleDisk).2.lastStandingsFromCache = false := by
  refine ⟨rfl, ?_, rfl, ?_⟩ <;>
    norm_num [fetch_standings, stStaleDisk, stCold, envFail5000, envFail, disk_cache_get,
      CACHE_TTL_STANDINGS, with_retry_const, CACHE_TTL_OFFLINE]

/-- Claim C3 counterexample: fetch_standings consults the short-TTL disk tier
BEFORE the memory tier: in a state holding both a live memory entry and a
fresh well-formed disk record with different data, it returns the hydrated
disk data (state unchanged, so no network or rate limit was touched), not
the memory value — refuting that a memory hit returns immediately. -/
theorem c3_counterexample :
    stDiskAndMem.memStandings = some (some ["MROW"], some ["MROW2"]) ∧
    (fetch_standings envFail5000 stDiskAndMem).1 = .ok (some ["DROW"], none) ∧
    (some (["DROW"] : List StandRow), (none : Option (List StandRow))) ≠
      (some ["MROW"], some ["MROW2"]) ∧
    (fetch_standings envFail5000 stDiskAndMem).2 = stDiskAndMem := by
  refine ⟨rfl, ?_, by decide, ?_⟩ <;>
    norm_num [fetch_standings, stDiskAndMem, stCold, envFail5000, envFail, disk_cache_get,
      CACHE_TTL_STANDINGS, hydrateStandings]

/-- Claim C3 amended: fetch_games consults its memory tier first (a hit
returns the cached value immediately with unchanged state); fetch_standings
and fetch_league_leaders consult the short-TTL DISK tier first (a fresh
well-formed record returns immediately, hydrated, with unchanged state),
then memory, and only when both tiers miss do they take the rate-limited
network path, whose outcome is the retried remote result. -/
theorem c3_amended (env : Env) (st : ClientState) :
    (∀ game_date v,
      alookup st.memGames ("games:" ++ (game_date.getD env.today)) = some v →
      fetch_games env game_date st = (.ok v, st)) ∧
    (∀ e w, disk_cache_get st.disk.standings env.now CACHE_TTL_STANDINGS =
        some (.dict e w) →
      fetch_standings env st = (.ok (hydrateStandings e w), st)) ∧
    (disk_cache_get st.disk.standings env.now CACHE_TTL_STANDINGS = none →
      ∀ v, st.memStandings = some v → fetch_standings env st = (.ok v, st)) ∧
    (disk_cache_get st.disk.standings env.now CACHE_TTL_STANDINGS = none →
      st.memStandings = none → ∀ p, env.standingsRemote = .ok p →
      (fetch_standings env st).1 = .ok p ∧
      (fetch_standings env st).2.lastRequestTime =
        rate_limit_return env.now st.lastRequestTime) ∧
    (∀ entries,
      disk_cache_get st.disk.leaders env.now CACHE_TTL_LEAGUE_LEADERS =
        some (.dict entries) →
      fetch_league_leaders env st = (.ok entries, st)) ∧
    (disk_cache_get st.disk.leaders env.now CACHE_TTL_LEAGUE_LEADERS = none →
      ∀ v, st.memLeaders = some v → fetch_league_leaders env st = (.ok v, st)) ∧
    (disk_cache_get st.disk.leaders env.now CACHE_TTL_LEAGUE_LEADERS = none →
      st.memLeaders = none →
      (fetch_league_leaders env st).2.lastRequestTime =
        rate_limit_return env.now st.lastRequestTime) := by
  refine ⟨?_, ?_, ?_, ?_, ?_, ?_, ?_⟩
  · intro game_date v h
    simp [fetch_games, h]
  · intro e w h
    simp [fetch_standings, h]
  · intro hd v hm
    simp [fetch_standings, hd, hm]
  · intro hd hm p hp
    constructor <;> simp [fetch_standings, hd, hm, with_retry_const, hp]
  · intro entries h
    simp [fetch_league_leaders, h]
  · intro hd v hm
    simp [fetch_league_leaders, hd, hm]
  · intro hd hm
    simp [fetch_league_leaders, hd, hm]

/-- Witness for C3 amended: a games memory hit and a standings disk hit. -/
theorem c3_amended_witness :
    fetch_games envFail (some "2025-02-16")
        { stCold with memGames := [("games:2025-02-16", (["G"], "2025-02-16"))] } =
      (.ok (["G"], "2025-02-16"),
        { stCold with memGames := [("games:2025-02-16", (["G"], "2025-02-16"))] }) ∧
    fetch_standings envFail5000 stDiskAndMem =
      (.ok (hydrateStandings ["DROW"] []), stDiskAndMem) :=
  ⟨(c3_amended envFail _).1 (some "2025-02-16") (["G"], "2025-02-16") rfl,
   (c3_amended envFail5000 stDiskAndMem).2.1 ["DROW"] [] (by
      norm_num [stDiskAndMem, stCold, disk_cache_get, CACHE_TTL_STANDINGS,
        envFail5000, envFail])⟩

/-- Claim C8 counterexample: fetch_league_leaders never touches the process
last-error: reaching the network path with a stale recorded error and a
succeeding remote call, it leaves the stale error in place instead of
clearing it at the start of the attempt. -/
theorem c8_counterexample :
    (fetch_league_leaders envLeadersOk stErrStale).2.lastError = some "stale" ∧
    some "stale" ≠ (none : Option String) :=
  ⟨rfl, by decide⟩

/-- Claim C8 amended: on their network path fetch_games and fetch_standings
clear last-error at the start of the attempt and, on failure of the retried
remote call, set it to the non-empty classified user-facing message; but
fetch_league_leaders never modifies last-error on any path. -/
theorem c8_amended (env : Env) (st : ClientState) :
    (∀ game_date,
      alookup st.memGames ("games:" ++ (game_date.getD env.today)) = none →
      (∀ r, gamesThunk env game_date (game_date.getD env.today) = .ok r →
        (fetch_games env game_date st).2.lastError = none) ∧
      (∀ e, gamesThunk env game_date (game_date.getD env.today) = .error e →
        (fetch_games env game_date st).2.lastError =
          some (user_facing_error e "Games") ∧
        user_facing_error e "Games" ≠ "")) ∧
    (disk_cache_get st.disk.standings env.now CACHE_TTL_STANDINGS = none →
      st.memStandings = none →
      (∀ r, env.standingsRemote = .ok r →
        (fetch_standings env st).2.lastError = none) ∧
      (∀ e, env.standingsRemote = .error e →
        (fetch_standings env st).2.lastError =
          some (user_facing_error e "Standings") ∧
        user_facing_error e "Standings" ≠ "")) ∧
    (fetch_league_leaders env st).2.lastError = st.lastError := by
  refine ⟨?_, ?_, ?_⟩
  · intro game_date hmem
    constructor
    · intro r hr
      simp [fetch_games, hmem, with_retry_const, hr]
    · intro e he
      refine ⟨?_, user_facing_error_ne e "Games" (by decide)⟩
      simp [fetch_games, hmem, with_retry_const, he, CACHE_TTL_OFFLINE]
  · intro hd hm
    constructor
    · intro r hr
      simp [fetch_standings, hd, hm, with_retry_const, hr]
    · intro e he
      refine ⟨?_, user_facing_error_ne e "Standings" (by decide)⟩
      simp [fetch_standings, hd, hm, with_retry_const, he, CACHE_TTL_OFFLINE]
  · rcases hd : disk_cache_get st.disk.leaders env.now CACHE_TTL_LEAGUE_LEADERS
      with _ | val
    · rcases hm : st.memLeaders with _ | v <;>
        simp [fetch_league_leaders, hd, hm]
    · rcases val with entries | _
      · simp [fetch_league_leaders, hd]
      · rcases hm : st.memLeaders with _ | v <;>
          simp [fetch_league_leaders, hd, hm]

/-- Witness for C8 amended: cold-start total failure for games and standings
and an arbitrary leaders run. -/
theorem c8_amended_witness :
    (fetch_games envFail (some "2025-02-16") stCold).2.lastError =
      some (user_facing_error errNet "Games") ∧
    user_facing_error errNet "Games" ≠ "" ∧
    (fetch_standings envFail stCold).2.lastError =
      some (user_facing_error errNet "Standings") ∧
    user_facing_error errNet "Standings" ≠ "" ∧
    (fetch_league_leaders envLeadersOk stErrStale).2.lastError = stErrStale.lastError :=
  have hg := ((c8_amended envFail stCold).1 (some "2025-02-16") rfl).2 errNet rfl
  have hs := ((c8_amended envFail stCold).2.1 rfl rfl).2 errNet rfl
  ⟨hg.1, hg.2, hs.1, hs.2, (c8_amended envLeadersOk stErrStale).2.2⟩

/-- Claim C7 (code-bug demonstration): fetch_head_to_head returns the
neutral zero structure for EVERY environment, pair of team identifiers and
state: the TeamGameLog construction at api.py line 533 evaluates the
undefined constants.REQUEST_TIMEOUT and raises before any log can load, and
the except handler at line 576 returns out as set on entry.  So while the
claimed failure behaviour (neutral, never an incomplete structure) does
hold, the shared-games branch deriving the most recent meeting is
unreachable — contradicting the repository integration test
test_fetch_head_to_head_structure, whose mocked two-game scenario (embedded
as envH2HTest) asserts a last meeting dated 2025-02-01, two season-series
games and wins_a = 1 but receives None, an empty list and 0. -/
theorem c7_neutral_always :
    (∀ (env : Env) (team_id_a team_id_b : ℕ) (st : ClientState),
      (fetch_head_to_head env team_id_a team_id_b st).1 = h2hNeutral) ∧
    (fetch_head_to_head envH2HTest 1610612747 1610612738 stCold).1.lastMeeting = none ∧
    (fetch_head_to_head envH2HTest 1610612747 1610612738 stCold).1.games.length = 0 ∧
    (fetch_head_to_head envH2HTest 1610612747 1610612738 stCold).1.winsA = 0 := by
    refine ⟨?_, ?_, ?_, ?_⟩
    · intro env team_id_a team_id_b st
      unfold fetch_head_to_head
      rcases tricodeFor team_id_b with _ | tb <;>
        rcases tricodeFor team_id_a with _ | ta <;>
          simp [REQUEST_TIMEOUT]
    · rfl
    · rfl
    · rfl

end NbaTerminal
